import Mathlib

/-!
Verification of the backtrace text renderer in
src/sgx/sgx_tstd/src/sys/backtrace/printing/mod.rs.

The Rust code renders captured stack frames to a text sink through two
cooperating formatters: a top-level BacktraceFmt owning the sink, the
print style and a running frame counter, and a per-frame BacktraceFrameFmt
owning a per-frame symbol counter and incrementing the parent's frame
counter on Drop.

Shallow embedding conventions:
* the instruction pointer (a raw pointer in Rust) is a Nat, 0 meaning null;
* the fmt::Formatter sink is a Sink: an output String plus an optional
  byte budget; a write that would exceed the budget fails, modelling
  fmt::Error from the underlying writer (unbounded budget = the sink
  never fails);
* each Rust write! macro call becomes one Sink.write of the fully
  formatted string; operations return (new state, ok flag), ok = false
  standing for Err(fmt::Error), and the ? operator becomes an early
  return that keeps the state mutated so far;
* the caller-supplied print_path callback writes the textual rendering of
  a path into the sink; it is modelled by a pure path-to-text function
  captured at construction, its output going through the same fallible
  sink;
* usize has size 8 bytes on the SGX x86_64 target, so HEX_WIDTH = 18.
-/

namespace SgxBacktrace

/-- Length of the formatted instruction-pointer field:
Rust HEX_WIDTH = 2 + 2 * size_of::<usize>() with 8-byte usize. -/
def HEX_WIDTH : Nat := 2 + 2 * 8

/-- The styles of printing (Rust enum PrintFmt).  Nonexhaustive models the
hidden reserved variant __Nonexhaustive. -/
inductive PrintFmt where
  | Short
  | Full
  | Nonexhaustive
deriving DecidableEq, Repr

/-- A symbol name (external SymbolName): it supports a terse rendering
(Rust alternate format "{:#}") and a verbose rendering (Rust "{}"). -/
structure SymbolName where
  terse : String
  verbose : String

/-- An encoding-agnostic path value (external BytesOrWideString): raw
bytes or wide characters; opaque to the renderer. -/
inductive BytesOrWideString where
  | bytes (bs : List Nat)
  | wide (ws : List Nat)

/-- A captured stack frame (external Frame), exposing its instruction
pointer; 0 models the null pointer. -/
structure Frame where
  ip : Nat

/-- Resolved symbol data (external Symbol). -/
structure Symbol where
  name : Option SymbolName
  filename_raw : Option BytesOrWideString
  lineno : Option Nat
  colno : Option Nat

/-- The text sink behind fmt::Formatter: accumulated output plus an
optional remaining byte budget; none = writes always succeed. -/
structure Sink where
  out : String
  fuel : Option Nat

/-- One write to the sink: appends on success; a write exceeding the
budget fails (models fmt::Error) and leaves the sink unchanged. -/
def Sink.write (s : Sink) (t : String) : Sink × Bool :=
  match s.fuel with
  | none => ({ s with out := s.out ++ t }, true)
  | some n =>
      if t.length ≤ n then ({ out := s.out ++ t, fuel := some (n - t.length) }, true)
      else (s, false)

/-- State of the top-level formatter (Rust struct BacktraceFmt): the sink,
the running frame counter, the style, and the captured path renderer. -/
structure BacktraceFmt where
  sink : Sink
  frame_index : Nat
  format : PrintFmt
  print_path : BytesOrWideString → String

/-- BacktraceFmt::new: binds the sink, style and path renderer, with
frame_index starting at 0. -/
def BacktraceFmt.new (sink : Sink) (format : PrintFmt)
    (print_path : BytesOrWideString → String) : BacktraceFmt :=
  { sink := sink, frame_index := 0, format := format, print_path := print_path }

/-- BacktraceFmt::add_context: currently a no-op returning Ok(()). -/
def BacktraceFmt.add_context (bf : BacktraceFmt) : BacktraceFmt × Bool :=
  (bf, true)

/-- BacktraceFmt::finish: currently a no-op returning Ok(()). -/
def BacktraceFmt.finish (bf : BacktraceFmt) : BacktraceFmt × Bool :=
  (bf, true)

/-- State of the per-frame formatter (Rust struct BacktraceFrameFmt): the
borrowed parent formatter plus the per-frame symbol counter. -/
structure BacktraceFrameFmt where
  fmt : BacktraceFmt
  symbol_index : Nat

/-- BacktraceFmt::frame: opens a frame scope with symbol_index = 0. -/
def BacktraceFmt.frame (bf : BacktraceFmt) : BacktraceFrameFmt :=
  { fmt := bf, symbol_index := 0 }

/-- Drop for BacktraceFrameFmt: releasing the scope increments the
parent's frame_index, unconditionally. -/
def dropFrame (ff : BacktraceFrameFmt) : BacktraceFmt :=
  { ff.fmt with frame_index := ff.fmt.frame_index + 1 }

/-- A string of n blank spaces (the Rust write of "" under a width). -/
def spaces (n : Nat) : String :=
  String.mk (List.replicate n ' ')

/-- Right-aligned space padding to a minimum width, the default Rust
integer formatting under a width such as the frame-index field. -/
def fmtWidthRight (s : String) (w : Nat) : String :=
  spaces (w - s.length) ++ s

/-- Lowercase hexadecimal digits of a Nat (Rust LowerHex). -/
def hexStr (n : Nat) : String :=
  String.mk (Nat.toDigits 16 n)

/-- Rust Debug formatting of a raw pointer under a width, as in the
source's write of the frame ip under HEX_WIDTH: the fmt::Pointer
implementation prefixes 0x and, with no # flag in the format string,
right-aligns the result in the field with space padding (no
zero-extension). -/
def ptrDebug (ip w : Nat) : String :=
  fmtWidthRight ("0x" ++ hexStr ip) w

/-- A sequence of writes to the frame formatter's sink, aborting on the
first failure (the chain of write! calls with the ? operator). -/
def writeAll (ff : BacktraceFrameFmt) : List String → BacktraceFrameFmt × Bool
  | [] => (ff, true)
  | s :: ss =>
      let r := ff.fmt.sink.write s
      let ff1 : BacktraceFrameFmt := { ff with fmt := { ff.fmt with sink := r.1 } }
      if r.2 then writeAll ff1 ss else (ff1, false)

/-- The strings written by the leading part of print_raw_generic: the
numeric frame label (and in Full style the pointer field) for the first
symbol of a frame, blank indents for continuation symbols. -/
def leadingStrings (format : PrintFmt) (symbol_index frame_index ip : Nat) : List String :=
  if symbol_index = 0 then
    [fmtWidthRight (toString frame_index) 4 ++ ": "] ++
      (if format = PrintFmt.Full then [ptrDebug ip HEX_WIDTH ++ " - "] else [])
  else
    ["      "] ++
      (if format = PrintFmt.Full then [spaces (HEX_WIDTH + 3)] else [])

/-- The symbol-name text written by print_raw_generic: terse form for
Short, verbose form for Full, and the literal unknown marker when there is
no name or the style is the reserved variant. -/
def nameString (format : PrintFmt) (name : Option SymbolName) : String :=
  match name, format with
  | some n, PrintFmt.Short => n.terse
  | some n, PrintFmt.Full => n.verbose
  | _, _ => "<unknown>"

/-- The strings written by print_fileline: in Full style a blank field of
HEX_WIDTH, then 13 spaces and "at ", the rendered path, the line, the
optional column, and a newline. -/
def filelineStrings (format : PrintFmt) (pathText : String) (line : Nat)
    (colno : Option Nat) : List String :=
  (if format = PrintFmt.Full then [spaces HEX_WIDTH] else []) ++
    ["             at ", pathText, ":" ++ toString line] ++
    (match colno with
     | some c => [":" ++ toString c]
     | none => []) ++
    ["\n"]

/-- BacktraceFrameFmt::print_fileline. -/
def print_fileline (ff : BacktraceFrameFmt) (file : BytesOrWideString)
    (line : Nat) (colno : Option Nat) : BacktraceFrameFmt × Bool :=
  writeAll ff (filelineStrings ff.fmt.format (ff.fmt.print_path file) line colno)

/-- BacktraceFrameFmt::print_raw_generic: suppress Short-style null
frames; otherwise write the leading label or indent, the symbol name and
a newline, then the location line when both filename and line number are
present. -/
def print_raw_generic (ff : BacktraceFrameFmt) (frame_ip : Nat)
    (symbol_name : Option SymbolName) (filename : Option BytesOrWideString)
    (lineno colno : Option Nat) : BacktraceFrameFmt × Bool :=
  if ff.fmt.format = PrintFmt.Short ∧ frame_ip = 0 then (ff, true)
  else
    match writeAll ff
      (leadingStrings ff.fmt.format ff.symbol_index ff.fmt.frame_index frame_ip ++
        [nameString ff.fmt.format symbol_name, "\n"]) with
    | (ff1, true) =>
        match filename, lineno with
        | some file, some line => print_fileline ff1 file line colno
        | _, _ => (ff1, true)
    | (ff1, false) => (ff1, false)

/-- BacktraceFrameFmt::print_raw_with_column: the generic render followed,
on success only, by the symbol_index increment. -/
def print_raw_with_column (ff : BacktraceFrameFmt) (frame_ip : Nat)
    (symbol_name : Option SymbolName) (filename : Option BytesOrWideString)
    (lineno colno : Option Nat) : BacktraceFrameFmt × Bool :=
  match print_raw_generic ff frame_ip symbol_name filename lineno colno with
  | (ff1, true) => ({ ff1 with symbol_index := ff1.symbol_index + 1 }, true)
  | (ff1, false) => (ff1, false)

/-- BacktraceFrameFmt::print_raw: delegates to print_raw_with_column with
no column. -/
def print_raw (ff : BacktraceFrameFmt) (frame_ip : Nat)
    (symbol_name : Option SymbolName) (filename : Option BytesOrWideString)
    (lineno : Option Nat) : BacktraceFrameFmt × Bool :=
  print_raw_with_column ff frame_ip symbol_name filename lineno none

/-- BacktraceFrameFmt::symbol: extracts the frame's ip and the symbol's
name, raw filename, line and column, then renders them. -/
def BacktraceFrameFmt.symbol (ff : BacktraceFrameFmt) (frame : Frame)
    (sym : Symbol) : BacktraceFrameFmt × Bool :=
  print_raw_with_column ff frame.ip sym.name sym.filename_raw sym.lineno sym.colno

/-- One raw render request against a frame scope: the arguments of one
print_raw_with_column call. -/
structure SymCall where
  ip : Nat
  name : Option SymbolName
  filename : Option BytesOrWideString
  lineno : Option Nat
  colno : Option Nat

/-- Run a sequence of print_raw_with_column calls on one frame scope (the
caller's per-frame symbol loop). -/
def runCalls (ff : BacktraceFrameFmt) (cs : List SymCall) : BacktraceFrameFmt :=
  cs.foldl (fun ff c => (print_raw_with_column ff c.ip c.name c.filename c.lineno c.colno).1) ff

/-- One whole frame scope: open it, run its symbol calls, release it
(Drop fires regardless of what happened inside). -/
def runFrame (bf : BacktraceFmt) (cs : List SymCall) : BacktraceFmt :=
  dropFrame (runCalls bf.frame cs)

/-- The caller's whole loop over captured frames. -/
def runBacktrace (bf : BacktraceFmt) (frames : List (List SymCall)) : BacktraceFmt :=
  frames.foldl runFrame bf

/-- Concatenation of a list of written strings, used to state what a
successful write sequence appends to the sink. -/
def concatAll : List String → String
  | [] => ""
  | s :: ss => s ++ concatAll ss

/-- The text the location step contributes to one rendered entry: the
fileline strings when both filename and line number are present, nothing
otherwise. -/
def locText (format : PrintFmt) (pp : BytesOrWideString → String)
    (filename : Option BytesOrWideString) (lineno colno : Option Nat) : String :=
  match filename, lineno with
  | some file, some line => concatAll (filelineStrings format (pp file) line colno)
  | _, _ => ""

/-- The text one non-suppressed generic render appends to the sink. -/
def genericText (format : PrintFmt) (pp : BytesOrWideString → String)
    (symbol_index frame_index ip : Nat) (name : Option SymbolName)
    (filename : Option BytesOrWideString) (lineno colno : Option Nat) : String :=
  concatAll (leadingStrings format symbol_index frame_index ip) ++
    (nameString format name ++ ("\n" ++ locText format pp filename lineno colno))

/-- The text one print_raw_with_column call appends on an unbounded sink:
empty for a suppressed Short-style null frame, one full entry otherwise. -/
def callText (format : PrintFmt) (pp : BytesOrWideString → String)
    (frame_index symbol_index ip : Nat) (name : Option SymbolName)
    (filename : Option BytesOrWideString) (lineno colno : Option Nat) : String :=
  if format = PrintFmt.Short ∧ ip = 0 then ""
  else genericText format pp symbol_index frame_index ip name filename lineno colno

/-- The text a frame scope's whole call sequence appends on an unbounded
sink; the symbol counter advances by one per call. -/
def callsText (format : PrintFmt) (pp : BytesOrWideString → String)
    (frame_index symbol_index : Nat) : List SymCall → String
  | [] => ""
  | c :: cs =>
      callText format pp frame_index symbol_index c.ip c.name c.filename c.lineno c.colno ++
        callsText format pp frame_index (symbol_index + 1) cs

/-- The text a whole backtrace run appends on an unbounded sink; the frame
counter advances by one per frame scope. -/
def backtraceText (format : PrintFmt) (pp : BytesOrWideString → String)
    (frame_index : Nat) : List (List SymCall) → String
  | [] => ""
  | cs :: rest =>
      callsText format pp frame_index 0 cs ++
        backtraceText format pp (frame_index + 1) rest

theorem concatAll_append (a b : List String) :
    concatAll (a ++ b) = concatAll a ++ concatAll b := by
  induction a with
  | nil => simp [concatAll, String.empty_append]
  | cons s ss ih => simp [concatAll, ih, String.append_assoc]

theorem writeAll_counters (ss : List String) (ff : BacktraceFrameFmt) :
    (writeAll ff ss).1.symbol_index = ff.symbol_index ∧
    (writeAll ff ss).1.fmt.frame_index = ff.fmt.frame_index ∧
    (writeAll ff ss).1.fmt.format = ff.fmt.format ∧
    (writeAll ff ss).1.fmt.print_path = ff.fmt.print_path := by
  induction ss generalizing ff with
  | nil => exact ⟨rfl, rfl, rfl, rfl⟩
  | cons s ss ih =>
      simp only [writeAll]
      split
      · exact ih _
      · exact ⟨rfl, rfl, rfl, rfl⟩

theorem writeAll_unbounded (ss : List String) (ff : BacktraceFrameFmt)
    (h : ff.fmt.sink.fuel = none) :
    writeAll ff ss =
      ({ ff with fmt := { ff.fmt with
          sink := ⟨ff.fmt.sink.out ++ concatAll ss, none⟩ } }, true) := by
  induction ss generalizing ff with
  | nil =>
      obtain ⟨⟨⟨o, fu⟩, fi, fo, pp⟩, si⟩ := ff
      obtain rfl : fu = none := h
      simp [writeAll, concatAll, String.append_empty]
  | cons s ss ih =>
      obtain ⟨⟨⟨o, fu⟩, fi, fo, pp⟩, si⟩ := ff
      obtain rfl : fu = none := h
      simp only [writeAll, Sink.write]
      rw [ih _ rfl]
      simp [concatAll, String.append_assoc]

theorem print_fileline_unbounded (ff : BacktraceFrameFmt) (file : BytesOrWideString)
    (line : Nat) (colno : Option Nat) (h : ff.fmt.sink.fuel = none) :
    print_fileline ff file line colno =
      ({ ff with fmt := { ff.fmt with
          sink := ⟨ff.fmt.sink.out ++
            concatAll (filelineStrings ff.fmt.format (ff.fmt.print_path file) line colno),
            none⟩ } }, true) :=
  writeAll_unbounded _ ff h

theorem print_raw_generic_unbounded (ff : BacktraceFrameFmt) (frame_ip : Nat)
    (symbol_name : Option SymbolName) (filename : Option BytesOrWideString)
    (lineno colno : Option Nat) (h : ff.fmt.sink.fuel = none)
    (hns : ¬(ff.fmt.format = PrintFmt.Short ∧ frame_ip = 0)) :
    print_raw_generic ff frame_ip symbol_name filename lineno colno =
      ({ ff with fmt := { ff.fmt with
          sink := ⟨ff.fmt.sink.out ++
            genericText ff.fmt.format ff.fmt.print_path ff.symbol_index
              ff.fmt.frame_index frame_ip symbol_name filename lineno colno,
            none⟩ } }, true) := by
  unfold print_raw_generic
  rw [if_neg hns, writeAll_unbounded _ ff h]
  rcases filename with _ | file <;> rcases lineno with _ | line <;>
    simp [print_fileline_unbounded, genericText, locText, concatAll_append, concatAll,
      String.append_assoc, String.append_empty]

theorem print_raw_with_column_unbounded (ff : BacktraceFrameFmt) (frame_ip : Nat)
    (symbol_name : Option SymbolName) (filename : Option BytesOrWideString)
    (lineno colno : Option Nat) (h : ff.fmt.sink.fuel = none) :
    print_raw_with_column ff frame_ip symbol_name filename lineno colno =
      ({ ff with
          fmt := { ff.fmt with
            sink := ⟨ff.fmt.sink.out ++
              callText ff.fmt.format ff.fmt.print_path ff.fmt.frame_index
                ff.symbol_index frame_ip symbol_name filename lineno colno,
              none⟩ },
          symbol_index := ff.symbol_index + 1 }, true) := by
  by_cases hs : ff.fmt.format = PrintFmt.Short ∧ frame_ip = 0
  · obtain ⟨⟨⟨o, fu⟩, fi, fo, pp⟩, si⟩ := ff
    obtain rfl : fu = none := h
    obtain ⟨hfo, rfl⟩ := hs
    obtain rfl : fo = PrintFmt.Short := hfo
    simp [print_raw_with_column, print_raw_generic, callText, String.append_empty]
  · unfold print_raw_with_column
    rw [print_raw_generic_unbounded ff _ _ _ _ _ h hs]
    simp [callText, hs]

theorem print_raw_generic_counters (ff : BacktraceFrameFmt) (frame_ip : Nat)
    (symbol_name : Option SymbolName) (filename : Option BytesOrWideString)
    (lineno colno : Option Nat) :
    (print_raw_generic ff frame_ip symbol_name filename lineno colno).1.symbol_index
        = ff.symbol_index ∧
    (print_raw_generic ff frame_ip symbol_name filename lineno colno).1.fmt.frame_index
        = ff.fmt.frame_index ∧
    (print_raw_generic ff frame_ip symbol_name filename lineno colno).1.fmt.format
        = ff.fmt.format ∧
    (print_raw_generic ff frame_ip symbol_name filename lineno colno).1.fmt.print_path
        = ff.fmt.print_path := by
  unfold print_raw_generic
  by_cases hns : ff.fmt.format = PrintFmt.Short ∧ frame_ip = 0
  · rw [if_pos hns]
    exact ⟨rfl, rfl, rfl, rfl⟩
  · rw [if_neg hns]
    rcases hw : writeAll ff
      (leadingStrings ff.fmt.format ff.symbol_index ff.fmt.frame_index frame_ip ++
        [nameString ff.fmt.format symbol_name, "\n"]) with ⟨ff1, ok⟩
    have hc := writeAll_counters
      (leadingStrings ff.fmt.format ff.symbol_index ff.fmt.frame_index frame_ip ++
        [nameString ff.fmt.format symbol_name, "\n"]) ff
    rw [hw] at hc
    cases ok
    · exact hc
    · rcases filename with _ | file <;> rcases lineno with _ | line
      · exact hc
      · exact hc
      · exact hc
      · dsimp only
        unfold print_fileline
        rcases hw2 : writeAll ff1
          (filelineStrings ff1.fmt.format (ff1.fmt.print_path file) line colno) with ⟨ff2, ok2⟩
        have hc2 := writeAll_counters
          (filelineStrings ff1.fmt.format (ff1.fmt.print_path file) line colno) ff1
        rw [hw2] at hc2
        exact ⟨hc2.1.trans hc.1, hc2.2.1.trans hc.2.1, hc2.2.2.1.trans hc.2.2.1,
          hc2.2.2.2.trans hc.2.2.2⟩

theorem print_raw_with_column_frame_index (ff : BacktraceFrameFmt) (frame_ip : Nat)
    (symbol_name : Option SymbolName) (filename : Option BytesOrWideString)
    (lineno colno : Option Nat) :
    (print_raw_with_column ff frame_ip symbol_name filename lineno colno).1.fmt.frame_index
      = ff.fmt.frame_index := by
  unfold print_raw_with_column
  rcases hg : print_raw_generic ff frame_ip symbol_name filename lineno colno with ⟨ff1, ok⟩
  have hc := print_raw_generic_counters ff frame_ip symbol_name filename lineno colno
  rw [hg] at hc
  cases ok
  · exact hc.2.1
  · exact hc.2.1

theorem runCalls_frame_index (cs : List SymCall) (ff : BacktraceFrameFmt) :
    (runCalls ff cs).fmt.frame_index = ff.fmt.frame_index := by
  induction cs generalizing ff with
  | nil => rfl
  | cons c cs ih =>
      exact (ih _).trans
        (print_raw_with_column_frame_index ff c.ip c.name c.filename c.lineno c.colno)

theorem runFrame_frame_index (cs : List SymCall) (bf : BacktraceFmt) :
    (runFrame bf cs).frame_index = bf.frame_index + 1 :=
  congrArg (· + 1) (runCalls_frame_index cs bf.frame)

theorem runBacktrace_frame_index (frames : List (List SymCall)) (bf : BacktraceFmt) :
    (runBacktrace bf frames).frame_index = bf.frame_index + frames.length := by
  induction frames generalizing bf with
  | nil => exact (Nat.add_zero _).symm
  | cons cs rest ih =>
      calc (runBacktrace (runFrame bf cs) rest).frame_index
          = (runFrame bf cs).frame_index + rest.length := ih _
        _ = bf.frame_index + (cs :: rest).length := by
            rw [runFrame_frame_index]
            simp only [List.length_cons]
            omega

theorem runCalls_unbounded (cs : List SymCall) (ff : BacktraceFrameFmt)
    (h : ff.fmt.sink.fuel = none) :
    runCalls ff cs =
      { ff with
        fmt := { ff.fmt with
          sink := ⟨ff.fmt.sink.out ++
            callsText ff.fmt.format ff.fmt.print_path ff.fmt.frame_index
              ff.symbol_index cs, none⟩ },
        symbol_index := ff.symbol_index + cs.length } := by
  induction cs generalizing ff with
  | nil =>
      obtain ⟨⟨⟨o, fu⟩, fi, fo, pp⟩, si⟩ := ff
      obtain rfl : fu = none := h
      simp [runCalls, callsText, String.append_empty]
  | cons c cs ih =>
      show runCalls (print_raw_with_column ff c.ip c.name c.filename c.lineno c.colno).1 cs = _
      rw [print_raw_with_column_unbounded ff c.ip c.name c.filename c.lineno c.colno h]
      dsimp only
      rw [ih _ rfl]
      simp [callsText, String.append_assoc]
      omega

theorem runFrame_unbounded (cs : List SymCall) (bf : BacktraceFmt)
    (h : bf.sink.fuel = none) :
    runFrame bf cs =
      { bf with
        sink := ⟨bf.sink.out ++
          callsText bf.format bf.print_path bf.frame_index 0 cs, none⟩,
        frame_index := bf.frame_index + 1 } := by
  unfold runFrame
  rw [runCalls_unbounded cs bf.frame h]
  rfl

theorem runBacktrace_unbounded (frames : List (List SymCall)) (bf : BacktraceFmt)
    (h : bf.sink.fuel = none) :
    runBacktrace bf frames =
      { bf with
        sink := ⟨bf.sink.out ++
          backtraceText bf.format bf.print_path bf.frame_index frames, none⟩,
        frame_index := bf.frame_index + frames.length } := by
  induction frames generalizing bf with
  | nil =>
      obtain ⟨⟨o, fu⟩, fi, fo, pp⟩ := bf
      obtain rfl : fu = none := h
      simp [runBacktrace, backtraceText, String.append_empty]
  | cons cs rest ih =>
      show runBacktrace (runFrame bf cs) rest = _
      rw [runFrame_unbounded cs bf h]
      rw [ih _ rfl]
      simp [backtraceText, String.append_assoc]
      omega

/-- A concrete path renderer used in closed examples: byte paths render
as a short file name, wide paths as another. -/
def ppDemo : BytesOrWideString → String
  | BytesOrWideString.bytes _ => "a.rs"
  | BytesOrWideString.wide _ => "w.rs"

/-- A fresh Full-style formatter over an unbounded sink. -/
def bfFullDemo : BacktraceFmt := BacktraceFmt.new ⟨"", none⟩ PrintFmt.Full ppDemo

/-- A fresh Short-style formatter over an unbounded sink. -/
def bfShortDemo : BacktraceFmt := BacktraceFmt.new ⟨"", none⟩ PrintFmt.Short ppDemo

/-- A fresh Short-style formatter over a sink that refuses every write. -/
def bfTinyDemo : BacktraceFmt := BacktraceFmt.new ⟨"", some 0⟩ PrintFmt.Short ppDemo

/-- The Full-style rendering of the first symbol of a fresh frame with
ip 0x1000 = 4096, name main and no location data. -/
def run6 : BacktraceFrameFmt × Bool :=
  print_raw_with_column bfFullDemo.frame 4096 (some ⟨"main", "main"⟩) none none none

/-- C8: print_raw renders one entry without a column; it is exactly
print_raw_with_column called with the same arguments and no column, so
the sink output, the result and the whole state change agree. -/
theorem C8_print_raw_equiv (ff : BacktraceFrameFmt) (frame_ip : Nat)
    (symbol_name : Option SymbolName) (filename : Option BytesOrWideString)
    (lineno : Option Nat) :
    print_raw ff frame_ip symbol_name filename lineno
      = print_raw_with_column ff frame_ip symbol_name filename lineno none := rfl

/-- C2 counterexample: the claim says a Short-style call with a null ip
leaves symbol_index unchanged, but print_raw_with_column increments
symbol_index after every successful call, including the suppressed
null-frame case: on a fresh frame scope the counter moves from 0 to 1. -/
theorem C2_counterexample :
    (print_raw_with_column bfShortDemo.frame 0 none none none none).1.symbol_index
      ≠ bfShortDemo.frame.symbol_index := by decide

/-- C2 amended: with style Short and a null ip, print_raw_with_column
(and print_raw and symbol) writes nothing to the sink, returns success
and leaves frame_index unchanged, but does increment symbol_index by one
like any other successful call. -/
theorem C2_null_suppression (ff : BacktraceFrameFmt) (frame_ip : Nat)
    (symbol_name : Option SymbolName) (filename : Option BytesOrWideString)
    (lineno colno : Option Nat) (frame : Frame) (sym : Symbol)
    (hS : ff.fmt.format = PrintFmt.Short) (hip : frame_ip = 0) (hf : frame.ip = 0) :
    print_raw_with_column ff frame_ip symbol_name filename lineno colno
        = ({ ff with symbol_index := ff.symbol_index + 1 }, true) ∧
    print_raw ff frame_ip symbol_name filename lineno
        = ({ ff with symbol_index := ff.symbol_index + 1 }, true) ∧
    BacktraceFrameFmt.symbol ff frame sym
        = ({ ff with symbol_index := ff.symbol_index + 1 }, true) := by
  subst hip
  have key : ∀ (n : Option SymbolName) (f : Option BytesOrWideString) (l c : Option Nat),
      print_raw_with_column ff 0 n f l c
        = ({ ff with symbol_index := ff.symbol_index + 1 }, true) := by
    intro n f l c
    unfold print_raw_with_column print_raw_generic
    rw [if_pos ⟨hS, rfl⟩]
  refine ⟨key _ _ _ _, key _ _ _ _, ?_⟩
  unfold BacktraceFrameFmt.symbol
  rw [hf]
  exact key _ _ _ _

theorem C2_null_suppression_witness :
    print_raw_with_column bfShortDemo.frame 0 none none none none
      = ({ bfShortDemo.frame with
            symbol_index := bfShortDemo.frame.symbol_index + 1 }, true) :=
  (C2_null_suppression bfShortDemo.frame 0 none none none none ⟨0⟩
    ⟨none, none, none, none⟩ rfl rfl rfl).1

/-- C6 counterexample: in Full style the first symbol of a fresh frame
with ip 0x1000 and name main does not produce the claimed zero-padded
address text: the frame ip is written with the Debug pointer format under
a width, which space-pads, and the claimed 17-character address field
does not even have the stated width 18. -/
theorem C6_counterexample :
    run6.1.fmt.sink.out ≠ "   0: 0x000000000001000 - main\n" := by decide

/-- C6 amended: the same rendering produces exactly
"   0:             0x1000 - main\n": the frame label in a 4-wide
right-aligned field and ": ", then the address 0x1000 right-aligned with
space padding in an 18-character field, then " - " and the name. -/
theorem C6_full_first_line :
    run6.1.fmt.sink.out = "   0:             0x1000 - main\n" := by decide

/-- C7 counterexample: a frame and symbol with no data at all (null ip,
no name, no filename, no line, no column) still writes an entry in Full
style: the symbol call emits the frame label, the null address field and
the unknown-name marker, so the claim does not hold in every style. -/
theorem C7_counterexample :
    (BacktraceFrameFmt.symbol bfFullDemo.frame ⟨0⟩ ⟨none, none, none, none⟩).1.fmt.sink.out
      ≠ "" := by decide

/-- C7 amended: a symbol call whose frame has a null ip writes nothing to
the sink in Short style (returning success, incrementing only
symbol_index); in Full and the reserved styles an entry is still
written. -/
theorem C7_empty_symbol_short (ff : BacktraceFrameFmt) (frame : Frame) (sym : Symbol)
    (hS : ff.fmt.format = PrintFmt.Short) (hip : frame.ip = 0) :
    BacktraceFrameFmt.symbol ff frame sym
      = ({ ff with symbol_index := ff.symbol_index + 1 }, true) := by
  unfold BacktraceFrameFmt.symbol
  rw [hip]
  unfold print_raw_with_column print_raw_generic
  rw [if_pos ⟨hS, rfl⟩]

theorem C7_empty_symbol_short_witness :
    BacktraceFrameFmt.symbol bfShortDemo.frame ⟨0⟩ ⟨none, none, none, none⟩
      = ({ bfShortDemo.frame with
            symbol_index := bfShortDemo.frame.symbol_index + 1 }, true) :=
  C7_empty_symbol_short bfShortDemo.frame ⟨0⟩ ⟨none, none, none, none⟩ rfl rfl

/-- C10: if the generic render fails (a sink write failed), then
print_raw_with_column returns the error with the state the failed render
left behind, and symbol_index is unchanged: the increment happens only
after the generic render succeeds in full, so the next render on this
scope still sees symbol_index as it was. -/
theorem C10_error_keeps_symbol_index (ff : BacktraceFrameFmt) (frame_ip : Nat)
    (symbol_name : Option SymbolName) (filename : Option BytesOrWideString)
    (lineno colno : Option Nat)
    (herr : (print_raw_generic ff frame_ip symbol_name filename lineno colno).2 = false) :
    print_raw_with_column ff frame_ip symbol_name filename lineno colno
        = ((print_raw_generic ff frame_ip symbol_name filename lineno colno).1, false) ∧
    (print_raw_with_column ff frame_ip symbol_name filename lineno colno).1.symbol_index
        = ff.symbol_index := by
  unfold print_raw_with_column
  have hc := print_raw_generic_counters ff frame_ip symbol_name filename lineno colno
  rcases hg : print_raw_generic ff frame_ip symbol_name filename lineno colno with ⟨ff1, ok⟩
  rw [hg] at hc
  obtain rfl : ok = false := (congrArg Prod.snd hg).symm.trans herr
  exact ⟨rfl, hc.1⟩

theorem C10_witness :
    (print_raw_generic bfTinyDemo.frame 4096 none none none none).2 = false ∧
    (print_raw_with_column bfTinyDemo.frame 4096 none none none none
        = ((print_raw_generic bfTinyDemo.frame 4096 none none none none).1, false) ∧
      (print_raw_with_column bfTinyDemo.frame 4096 none none none none).1.symbol_index
        = bfTinyDemo.frame.symbol_index) :=
  ⟨by decide, C10_error_keeps_symbol_index bfTinyDemo.frame 4096 none none none none (by decide)⟩

/-- C3: for every written symbol entry, the first symbol of a frame
(symbol_index = 0) starts with the frame index right-aligned in a
4-character field and ": ", plus in Full style the address as the
fixed-width HEX_WIDTH hexadecimal field and " - "; a continuation symbol
(symbol_index > 0) starts with 6 spaces, plus HEX_WIDTH + 3 further
blanks in Full style, and never the numeric label. -/
theorem C3_leading_layout (ff : BacktraceFrameFmt) (frame_ip : Nat)
    (symbol_name : Option SymbolName) (filename : Option BytesOrWideString)
    (lineno colno : Option Nat) (h : ff.fmt.sink.fuel = none)
    (hns : ¬(ff.fmt.format = PrintFmt.Short ∧ frame_ip = 0)) :
    ∃ rest : String,
      (print_raw_generic ff frame_ip symbol_name filename lineno colno).1.fmt.sink.out
        = ff.fmt.sink.out ++
          (if ff.symbol_index = 0 then
            fmtWidthRight (toString ff.fmt.frame_index) 4 ++ ": " ++
              (if ff.fmt.format = PrintFmt.Full then ptrDebug frame_ip HEX_WIDTH ++ " - "
               else "")
          else
            "      " ++
              (if ff.fmt.format = PrintFmt.Full then spaces (HEX_WIDTH + 3) else "")) ++
          rest := by
  refine ⟨nameString ff.fmt.format symbol_name ++
    ("\n" ++ locText ff.fmt.format ff.fmt.print_path filename lineno colno), ?_⟩
  rw [print_raw_generic_unbounded ff _ _ _ _ _ h hns]
  by_cases h0 : ff.symbol_index = 0 <;>
    cases hfmt : ff.fmt.format <;>
      simp [genericText, leadingStrings, concatAll, h0, hfmt, String.append_assoc,
        String.append_empty]

theorem C3_witness :
    ∃ rest : String,
      (print_raw_generic bfFullDemo.frame 4096 (some ⟨"main", "main"⟩)
          none none none).1.fmt.sink.out
        = "" ++ ("   0: " ++ ("            0x1000" ++ " - ")) ++ rest :=
  C3_leading_layout bfFullDemo.frame 4096 (some ⟨"main", "main"⟩) none none none
    rfl (by decide)

/-- C4: for every written symbol entry, a location sub-line is emitted if
and only if both a filename and a line number are present; it consists of
HEX_WIDTH blanks in Full style, then 13 spaces and "at ", the rendered
path, ":line", ":col" exactly when a column is present, and a newline;
a missing line number suppresses it even when a filename is present. -/
theorem C4_location_line (ff : BacktraceFrameFmt) (frame_ip : Nat)
    (symbol_name : Option SymbolName) (filename : Option BytesOrWideString)
    (lineno colno : Option Nat) (h : ff.fmt.sink.fuel = none)
    (hns : ¬(ff.fmt.format = PrintFmt.Short ∧ frame_ip = 0)) :
    (print_raw_generic ff frame_ip symbol_name filename lineno colno).1.fmt.sink.out
      = ff.fmt.sink.out ++
        concatAll (leadingStrings ff.fmt.format ff.symbol_index ff.fmt.frame_index frame_ip) ++
        nameString ff.fmt.format symbol_name ++ "\n" ++
        (match filename, lineno with
         | some file, some line =>
             (if ff.fmt.format = PrintFmt.Full then spaces HEX_WIDTH else "") ++
               ("             at " ++ (ff.fmt.print_path file ++ ((":" ++ toString line) ++
                 ((match colno with
                   | some c => ":" ++ toString c
                   | none => "") ++ "\n"))))
         | _, _ => "") := by
  rw [print_raw_generic_unbounded ff _ _ _ _ _ h hns]
  rcases filename with _ | file <;> rcases lineno with _ | line <;>
    rcases colno with _ | c <;>
      by_cases hfmt : ff.fmt.format = PrintFmt.Full <;>
        simp [genericText, locText, filelineStrings, concatAll, hfmt,
          String.append_assoc, String.append_empty]

theorem C4_witness :
    (print_raw_generic bfShortDemo.frame 4096 (some ⟨"foo", "foo"⟩)
        (some (BytesOrWideString.bytes [])) (some 10) none).1.fmt.sink.out
      = "" ++
        concatAll (leadingStrings PrintFmt.Short 0 0 4096) ++
        nameString PrintFmt.Short (some ⟨"foo", "foo"⟩) ++ "\n" ++
        ("" ++ ("             at " ++ ("a.rs" ++ ((":" ++ toString 10) ++ ("" ++ "\n"))))) :=
  C4_location_line bfShortDemo.frame 4096 (some ⟨"foo", "foo"⟩)
    (some (BytesOrWideString.bytes [])) (some 10) none rfl (by decide)

/-- C5: for every written symbol entry, the name part is the terse
rendering for Short with a name present, the verbose rendering for Full
with a name present, and the literal unknown marker when no name is
present or the style is the reserved variant; the name line ends with a
newline. -/
theorem C5_name_rendering (ff : BacktraceFrameFmt) (frame_ip : Nat)
    (symbol_name : Option SymbolName) (filename : Option BytesOrWideString)
    (lineno colno : Option Nat) (h : ff.fmt.sink.fuel = none)
    (hns : ¬(ff.fmt.format = PrintFmt.Short ∧ frame_ip = 0)) :
    (print_raw_generic ff frame_ip symbol_name filename lineno colno).1.fmt.sink.out
      = ff.fmt.sink.out ++
        concatAll (leadingStrings ff.fmt.format ff.symbol_index ff.fmt.frame_index frame_ip) ++
        (match symbol_name, ff.fmt.format with
         | some n, PrintFmt.Short => n.terse
         | some n, PrintFmt.Full => n.verbose
         | _, _ => "<unknown>") ++ "\n" ++
        locText ff.fmt.format ff.fmt.print_path filename lineno colno := by
  rw [print_raw_generic_unbounded ff _ _ _ _ _ h hns]
  simp [genericText, nameString, String.append_assoc]

theorem C5_witness :
    (print_raw_generic bfFullDemo.frame 4096 none none none none).1.fmt.sink.out
      = "" ++
        concatAll (leadingStrings PrintFmt.Full 0 0 4096) ++
        "<unknown>" ++ "\n" ++ "" :=
  C5_name_rendering bfFullDemo.frame 4096 none none none none rfl (by decide)

/-- C9: the rendering pipeline is deterministic in its inputs and
captured state: two fresh formatter instances with the same style, path
renderer and (unbounded) sink produce the same appended bytes for the
same input frames, whatever the sinks already contained. -/
theorem C9_determinism (format : PrintFmt) (pp : BytesOrWideString → String)
    (frames : List (List SymCall)) (s1 s2 : String) :
    ∃ t : String,
      (runBacktrace (BacktraceFmt.new ⟨s1, none⟩ format pp) frames).sink.out = s1 ++ t ∧
      (runBacktrace (BacktraceFmt.new ⟨s2, none⟩ format pp) frames).sink.out = s2 ++ t := by
  refine ⟨backtraceText format pp 0 frames, ?_, ?_⟩ <;>
    · rw [runBacktrace_unbounded _ _ rfl]
      rfl

/-- C1: releasing a frame scope increments the parent's frame_index
exactly once, whatever happened inside the scope (any number of symbol
calls, including zero, and any sink failures); over a run the counter
advances by the number of scopes; after the first k frames of a fresh
formatter the next scope opens with frame_index k and symbol_index 0, and
a first-symbol render emits the 4-wide right-aligned label of its
frame_index. -/
theorem C1_frame_advance :
    (∀ (bf : BacktraceFmt) (cs : List SymCall),
        (runFrame bf cs).frame_index = bf.frame_index + 1) ∧
    (∀ (bf : BacktraceFmt) (frames : List (List SymCall)),
        (runBacktrace bf frames).frame_index = bf.frame_index + frames.length) ∧
    (∀ (s : String) (format : PrintFmt) (pp : BytesOrWideString → String)
        (frames : List (List SymCall)) (k : Nat), k ≤ frames.length →
        ((runBacktrace (BacktraceFmt.new ⟨s, none⟩ format pp) (frames.take k)).frame).fmt.frame_index
            = k ∧
        ((runBacktrace (BacktraceFmt.new ⟨s, none⟩ format pp) (frames.take k)).frame).symbol_index
            = 0) ∧
    (∀ (ff : BacktraceFrameFmt) (frame_ip : Nat) (symbol_name : Option SymbolName)
        (filename : Option BytesOrWideString) (lineno colno : Option Nat),
        ff.symbol_index = 0 → ff.fmt.sink.fuel = none →
        ¬(ff.fmt.format = PrintFmt.Short ∧ frame_ip = 0) →
        ∃ rest : String,
          (print_raw_generic ff frame_ip symbol_name filename lineno colno).1.fmt.sink.out
            = ff.fmt.sink.out ++ (fmtWidthRight (toString ff.fmt.frame_index) 4 ++ ": ") ++ rest) := by
  refine ⟨fun bf cs => runFrame_frame_index cs bf,
    fun bf frames => runBacktrace_frame_index frames bf, ?_, ?_⟩
  · intro s format pp frames k hk
    constructor
    · show (runBacktrace (BacktraceFmt.new ⟨s, none⟩ format pp) (frames.take k)).frame_index = k
      rw [runBacktrace_frame_index]
      show 0 + (frames.take k).length = k
      rw [List.length_take]
      omega
    · rfl
  · intro ff frame_ip symbol_name filename lineno colno h0 h hns
    refine ⟨concatAll
        (if ff.fmt.format = PrintFmt.Full then [ptrDebug frame_ip HEX_WIDTH ++ " - "] else []) ++
      (nameString ff.fmt.format symbol_name ++
        ("\n" ++ locText ff.fmt.format ff.fmt.print_path filename lineno colno)), ?_⟩
    rw [print_raw_generic_unbounded ff _ _ _ _ _ h hns]
    simp [genericText, leadingStrings, h0, concatAll, String.append_assoc, String.append_empty]

theorem C1_witness :
    ((runBacktrace (BacktraceFmt.new ⟨"", none⟩ PrintFmt.Short ppDemo)
        (([[], []] : List (List SymCall)).take 1)).frame).fmt.frame_index = 1 ∧
    ((runBacktrace (BacktraceFmt.new ⟨"", none⟩ PrintFmt.Short ppDemo)
        (([[], []] : List (List SymCall)).take 1)).frame).symbol_index = 0 :=
  C1_frame_advance.2.2.1 "" PrintFmt.Short ppDemo [[], []] 1 (by decide)

end SgxBacktrace
